import Mathlib

/-!
Shallow embedding of `src/api_maqueta/filters/vehicle_filters.py`
(the vehicle-filter validation and compatibility engine) and proofs of
the specification claims about it.

Conventions of the embedding:
* Python strings are Lean `String`s (lists of unicode characters).
* `str.strip()` is modelled by removing, at both ends, exactly the
  characters satisfying the Python predicate `str.isspace()`.
* `str.lower()` is modelled as ASCII lowering (every string appearing in
  the claims is ASCII, and any character left uppercase by the model is
  rejected by the final allowed-character check exactly as in the code).
* Python dicts (iteration in insertion order, assignment keeps the
  position of an existing key) are association lists `List (String × String)`
  with `dget` / `dset` below.
* A fallible Python function returning a tuple is a Lean function
  returning the same tuple of `Bool`/`Option` components.
-/

/-- Characters for which Python `str.isspace()` is true; `str.strip()`
removes exactly these from both ends. -/
def pySpace (c : Char) : Bool :=
  let n := c.toNat
  n == 9 || n == 10 || n == 11 || n == 12 || n == 13 ||
  n == 28 || n == 29 || n == 30 || n == 31 || n == 32 ||
  n == 133 || n == 160 || n == 5760 || (8192 ≤ n && n ≤ 8202) ||
  n == 8232 || n == 8233 || n == 8239 || n == 8287 || n == 12288

/-- ASCII lowering, the effect of `str.lower()` on ASCII text. -/
def asciiLower (c : Char) : Char :=
  if 65 ≤ c.toNat ∧ c.toNat ≤ 90 then Char.ofNat (c.toNat + 32) else c

/-- The character class `[\x00-\x1F\x7F]` removed by the first `re.sub`. -/
def isControl (c : Char) : Bool :=
  c.toNat ≤ 31 || c.toNat == 127

/-- The character class removed by the second `re.sub`:
single quote, double quote, backslash, semicolon, `<`, `>`. -/
def isDangerous (c : Char) : Bool :=
  let n := c.toNat
  n == 39 || n == 34 || n == 92 || n == 59 || n == 60 || n == 62

/-- The character class of the final full-match check `^[a-z0-9\-_]+$`. -/
def isAllowedChar (c : Char) : Bool :=
  let n := c.toNat
  (97 ≤ n && n ≤ 122) || (48 ≤ n && n ≤ 57) || n == 45 || n == 95

/-- `value.strip()`: drop `pySpace` characters from both ends. -/
def stripChars (l : List Char) : List Char :=
  ((l.dropWhile pySpace).reverse.dropWhile pySpace).reverse

/-- The character pipeline of `VehicleFilter._sanitize_input`:
strip, lower, remove control characters, remove dangerous characters,
then require a full match of `^[a-z0-9\-_]+$` (else empty). -/
def sanitizeCore (l : List Char) : List Char :=
  let v1 := stripChars l
  let v2 := v1.map asciiLower
  let v3 := v2.filter (fun c => !isControl c)
  let v4 := v3.filter (fun c => !isDangerous c)
  if v4 ≠ [] ∧ v4.all isAllowedChar then v4 else []

/-- `VehicleFilter._sanitize_input`.  `none` models a non-string (or
absent) Python value, which the guard `not value or not
isinstance(value, str)` sends to the empty string. -/
def sanitizeInput (v : Option String) : String :=
  match v with
  | none => ""
  | some s => if s = "" then "" else String.mk (sanitizeCore s.data)

/-- `VehicleFilter._sanitize_input` restricted to genuine strings. -/
def sanitize (s : String) : String :=
  sanitizeInput (some s)

/-! ## Vocabulary registry (the four enumerations) -/

/-- The values of `TipoVehiculo`, in declaration order. -/
def tipoVehiculoValues : List String :=
  ["auto", "moto", "camion", "bus", "maquinaria", "agricola"]

/-- The values of `TipoAceite`, in declaration order. -/
def tipoAceiteValues : List String :=
  ["sintetico", "mineral", "semi-sintetico", "transmision", "hidraulico"]

/-- The values of `TipoCombustible`, in declaration order. -/
def tipoCombustibleValues : List String :=
  ["gasolina", "diesel", "electrico", "hibrido", "gas", "biocombustible"]

/-- The values of `TipoFiltro`, in declaration order. -/
def tipoFiltroValues : List String :=
  ["aire", "aceite", "combustible", "polen", "habitaculo", "hidraulico",
   "transmision", "agua"]

/-- The keys of the `filter_map` dict in `validate_filter_value`: the four
recognized filter dimensions. -/
def filterMapKeys : List String :=
  ["tipo_vehiculo", "tipo_aceite", "tipo_combustible", "tipo_filtro"]

/-- `filter_map` lookup followed by `[item.value for item in enum_class]`:
the vocabulary of a recognized dimension (and `[]` off the four keys,
where the code never reads it). -/
def vocabOf (ft : String) : List String :=
  if ft = "tipo_vehiculo" then tipoVehiculoValues
  else if ft = "tipo_aceite" then tipoAceiteValues
  else if ft = "tipo_combustible" then tipoCombustibleValues
  else if ft = "tipo_filtro" then tipoFiltroValues
  else []

/-! ## Error messages returned by the validators -/

/-- Message for an empty sanitized dimension or value. -/
def emptyInputMsg : String := "Tipo de filtro o valor vacío"

/-- Message for a dimension that is not one of the four recognized keys. -/
def unknownDimensionMsg (ft : String) : String :=
  "Tipo de filtro no válido: " ++ ft

/-- Message for a value outside the dimension vocabulary. -/
def valueNotInVocabularyMsg (ft v : String) : String :=
  "Valor \x27" ++ v ++ "\x27 no válido para " ++ ft

/-- The single generic message returned whenever any compatibility rule
fires. -/
def incompatibleComboMsg : String := "Combinación de filtros incompatible"

/-- The wrapper the combination validator puts around a per-value
rejection message. -/
def invalidFilterMsg (m : String) : String := "Filtro inválido: " ++ m

/-! ## Per-value validator -/

/-- `VehicleFilter.validate_filter_value`: sanitize both arguments, then in
order check non-emptiness, dimension recognition, and vocabulary
membership.  Returns `(es_valido, mensaje_error)`. -/
def validate_filter_value (filterType value : String) : Bool × Option String :=
  let ft := sanitize filterType
  let v := sanitize value
  if ft = "" ∨ v = "" then (false, some emptyInputMsg)
  else if ft ∉ filterMapKeys then (false, some (unknownDimensionMsg ft))
  else if v ∉ vocabOf ft then (false, some (valueNotInVocabularyMsg ft v))
  else (true, none)

/-! ## Python dict model -/

/-- A Python `Dict[str, str]` in iteration (= insertion) order. -/
abbrev Dict := List (String × String)

/-- `d.get(k)`: value of the first (hence only) entry with key `k`. -/
def dget (d : Dict) (k : String) : Option String :=
  (d.find? (fun p => p.1 == k)).map Prod.snd

/-- `d[k] = v`: replace in place if the key is present, else append. -/
def dset (d : Dict) (k v : String) : Dict :=
  if d.any (fun p => p.1 == k) then
    d.map (fun p => if p.1 == k then (k, v) else p)
  else d ++ [(k, v)]

/-! ## Compatibility rules -/

/-- Rule 1: synthetic oil with diesel fuel on a truck or bus. -/
def rule1 (f : Dict) : Bool :=
  dget f "tipo_aceite" == some "sintetico" &&
  dget f "tipo_combustible" == some "diesel" &&
  (dget f "tipo_vehiculo" == some "camion" || dget f "tipo_vehiculo" == some "bus")

/-- Rule 2: cabin filter with a present vehicle type other than car or
bus (`f.get("tipo_vehiculo") not in ["auto", "bus", None]`). -/
def rule2 (f : Dict) : Bool :=
  dget f "tipo_filtro" == some "habitaculo" &&
  !(dget f "tipo_vehiculo" == some "auto" || dget f "tipo_vehiculo" == some "bus" ||
    dget f "tipo_vehiculo" == none)

/-- Rule 3: electric fuel with a fuel filter. -/
def rule3 (f : Dict) : Bool :=
  dget f "tipo_combustible" == some "electrico" &&
  dget f "tipo_filtro" == some "combustible"

/-- Rule 4: motorcycle with a pollen or cabin filter. -/
def rule4 (f : Dict) : Bool :=
  dget f "tipo_vehiculo" == some "moto" &&
  (dget f "tipo_filtro" == some "polen" || dget f "tipo_filtro" == some "habitaculo")

/-- The fixed ordered rule list of `_check_compatibility`. -/
def compatibilityRules : List (Dict → Bool) := [rule1, rule2, rule3, rule4]

/-- The rule loop: first rule that fires returns the one generic message. -/
def runRules : List (Dict → Bool) → Dict → Option String
  | [], _ => none
  | r :: rs, f => if r f then some incompatibleComboMsg else runRules rs f

/-- `VehicleFilter._check_compatibility`. -/
def check_compatibility (f : Dict) : Option String :=
  runRules compatibilityRules f

/-! ## Combination validator -/

/-- The tail of `validate_filter_combo` after the sanitizing loop:
run the compatibility check only when more than one dimension survived.
Returns `(es_valido, mensaje_error, filtros_sanitizados)`. -/
def finishCombo (acc : Dict) : Bool × Option String × Option Dict :=
  if acc.length > 1 then
    match check_compatibility acc with
    | some msg => (false, some msg, none)
    | none => (true, none, some acc)
  else (true, none, some acc)

/-- The `for filter_type, value in filters.items()` loop of
`validate_filter_combo`, threading the `sanitized_filters` dict. -/
def comboLoop : List (String × String) → Dict → Bool × Option String × Option Dict
  | [], acc => finishCombo acc
  | (k, v) :: rest, acc =>
    let sk := sanitize k
    let sv := sanitize v
    if sk = "" ∨ sv = "" then comboLoop rest acc
    else
      match validate_filter_value sk sv with
      | (true, _) => comboLoop rest (dset acc sk sv)
      | (false, some m) => (false, some (invalidFilterMsg m), none)
      | (false, none) => (false, some (invalidFilterMsg "None"), none)

/-- `VehicleFilter.validate_filter_combo` (the `if not filters` guard,
then the loop, then the compatibility check). -/
def validate_filter_combo (filters : List (String × String)) :
    Bool × Option String × Option Dict :=
  if filters = [] then (true, none, some [])
  else comboLoop filters []

/-! ## Recommendations -/

/-- The `recommendations` dict literal of `get_recommended_filters`. -/
def recommendationsTable : List (String × List (String × List String)) :=
  [("auto",
    [("tipo_aceite", ["sintetico", "semi-sintetico"]),
     ("tipo_combustible", ["gasolina", "diesel", "hibrido"]),
     ("tipo_filtro", ["aire", "aceite", "combustible", "polen", "habitaculo"])]),
   ("moto",
    [("tipo_aceite", ["sintetico", "semi-sintetico"]),
     ("tipo_combustible", ["gasolina"]),
     ("tipo_filtro", ["aire", "aceite", "combustible"])]),
   ("camion",
    [("tipo_aceite", ["mineral", "semi-sintetico"]),
     ("tipo_combustible", ["diesel", "gas"]),
     ("tipo_filtro", ["aire", "aceite", "combustible", "hidraulico"])]),
   ("bus",
    [("tipo_aceite", ["mineral", "semi-sintetico"]),
     ("tipo_combustible", ["diesel"]),
     ("tipo_filtro", ["aire", "aceite", "combustible"])])]

/-- `VehicleFilter.get_recommended_filters`: sanitize, validate as a
vehicle type, then look up the recommendation table (empty off-table). -/
def get_recommended_filters (vehicleType : String) : List (String × List String) :=
  let vt := sanitize vehicleType
  if vt = "" then []
  else if (validate_filter_value "tipo_vehiculo" vt).1 = false then []
  else
    match recommendationsTable.find? (fun p => p.1 == vt) with
    | some p => p.2
    | none => []

/-- The regex `^[a-z0-9\-_]+$` as a full-string match. -/
def fullmatchAllowed (s : String) : Bool :=
  !s.data.isEmpty && s.data.all isAllowedChar

/-- Lookup in a recommendation mapping (a dict from dimension to token
list). -/
def rget (d : List (String × List String)) (k : String) : Option (List String) :=
  (d.find? (fun p => p.1 == k)).map Prod.snd

/-- Invariant of `sanitized_filters`: distinct keys, every key a
recognized dimension, every value in the vocabulary of its dimension. -/
def GoodDict (d : Dict) : Prop :=
  (d.map Prod.fst).Nodup ∧ ∀ p ∈ d, p.1 ∈ filterMapKeys ∧ p.2 ∈ vocabOf p.1

instance (d : Dict) : Decidable (GoodDict d) := by
  unfold GoodDict
  infer_instance

/-! ## Helper lemmas: the sanitizer fixes its own output -/

theorem allowed_not_space {c : Char} (h : isAllowedChar c = true) :
    pySpace c = false := by
  simp [isAllowedChar] at h
  simp [pySpace]
  omega

theorem allowed_lower_fixed {c : Char} (h : isAllowedChar c = true) :
    asciiLower c = c := by
  simp [isAllowedChar] at h
  unfold asciiLower
  rw [if_neg]
  omega

theorem allowed_not_control {c : Char} (h : isAllowedChar c = true) :
    isControl c = false := by
  simp [isAllowedChar] at h
  simp [isControl]
  omega

theorem allowed_not_dangerous {c : Char} (h : isAllowedChar c = true) :
    isDangerous c = false := by
  simp [isAllowedChar] at h
  simp [isDangerous]
  omega

theorem dropWhile_eq_self_of_none {p : Char → Bool} {l : List Char}
    (h : ∀ c ∈ l, p c = false) : l.dropWhile p = l := by
  cases l with
  | nil => rfl
  | cons c cs => simp [List.dropWhile, h c (by simp)]

theorem stripChars_eq_self {l : List Char}
    (h : ∀ c ∈ l, pySpace c = false) : stripChars l = l := by
  unfold stripChars
  rw [dropWhile_eq_self_of_none h, dropWhile_eq_self_of_none, List.reverse_reverse]
  intro c hc
  exact h c (by simpa using hc)

theorem map_fixed_eq_self {f : Char → Char} {l : List Char}
    (h : ∀ c ∈ l, f c = c) : l.map f = l := by
  induction l with
  | nil => rfl
  | cons c cs ih =>
    simp only [List.map_cons, h c (by simp)]
    rw [ih (fun d hd => h d (by simp [hd]))]

theorem filter_true_eq_self {p : Char → Bool} {l : List Char}
    (h : ∀ c ∈ l, p c = true) : l.filter p = l := by
  induction l with
  | nil => rfl
  | cons c cs ih =>
    rw [List.filter_cons_of_pos (h c (by simp)), ih (fun d hd => h d (by simp [hd]))]

theorem sanitizeCore_fixed {l : List Char}
    (hne : l ≠ []) (hall : l.all isAllowedChar = true) : sanitizeCore l = l := by
  have hmem : ∀ c ∈ l, isAllowedChar c = true := by
    simpa [List.all_eq_true] using hall
  show (let v1 := stripChars l
        let v2 := v1.map asciiLower
        let v3 := v2.filter (fun c => !isControl c)
        let v4 := v3.filter (fun c => !isDangerous c)
        if v4 ≠ [] ∧ v4.all isAllowedChar then v4 else []) = l
  simp only
  rw [stripChars_eq_self (fun c hc => allowed_not_space (hmem c hc))]
  rw [map_fixed_eq_self (fun c hc => allowed_lower_fixed (hmem c hc))]
  rw [filter_true_eq_self (fun c hc => by
    simp [allowed_not_dangerous (hmem c (List.mem_filter.mp hc).1)])]
  rw [filter_true_eq_self (fun c hc => by simp [allowed_not_control (hmem c hc)])]
  rw [if_pos ⟨hne, hall⟩]

theorem sanitizeCore_cases (l : List Char) :
    sanitizeCore l = [] ∨
      (sanitizeCore l ≠ [] ∧ (sanitizeCore l).all isAllowedChar = true) := by
  unfold sanitizeCore
  simp only
  by_cases h : ((((stripChars l).map asciiLower).filter (fun c => !isControl c)).filter
      (fun c => !isDangerous c)) ≠ [] ∧
      (((((stripChars l).map asciiLower).filter (fun c => !isControl c)).filter
      (fun c => !isDangerous c))).all isAllowedChar = true
  · right
    rw [if_pos h]
    exact h
  · left
    rw [if_neg h]

theorem string_mk_eq_empty_iff (l : List Char) : String.mk l = "" ↔ l = [] := by
  constructor
  · intro h
    have := congrArg String.data h
    simpa using this
  · intro h
    rw [h]

theorem sanitize_def (s : String) :
    sanitize s = if s = "" then "" else String.mk (sanitizeCore s.data) := rfl

theorem sanitize_cases (s : String) :
    sanitize s = "" ∨
      (sanitize s ≠ "" ∧ (sanitize s).data ≠ [] ∧
        (sanitize s).data.all isAllowedChar = true) := by
  rw [sanitize_def]
  by_cases hs : s = ""
  · left
    rw [if_pos hs]
  · rw [if_neg hs]
    rcases sanitizeCore_cases s.data with h | ⟨hne, hall⟩
    · left
      rw [(string_mk_eq_empty_iff _).mpr h]
    · right
      refine ⟨fun hcon => hne ((string_mk_eq_empty_iff _).mp hcon), hne, hall⟩

/-- Unfolding of `validate_filter_value` as a chain of checks on the
sanitized arguments. -/
theorem vfv_eq (ft v : String) : validate_filter_value ft v =
    (if sanitize ft = "" ∨ sanitize v = "" then (false, some emptyInputMsg)
     else if sanitize ft ∉ filterMapKeys then
       (false, some (unknownDimensionMsg (sanitize ft)))
     else if sanitize v ∉ vocabOf (sanitize ft) then
       (false, some (valueNotInVocabularyMsg (sanitize ft) (sanitize v)))
     else (true, none)) := rfl

/-- The four dimension keys are fixed points of the sanitizer. -/
theorem keys_fixed : ∀ d ∈ filterMapKeys, sanitize d = d ∧ d ≠ "" := by decide

/-- Every vocabulary token is a fixed point of the sanitizer. -/
theorem tokens_fixed : ∀ d ∈ filterMapKeys, ∀ t ∈ vocabOf d,
    sanitize t = t ∧ t ≠ "" := by decide

/-- Every (dimension, token) pair from the vocabularies validates. -/
theorem vfv_token : ∀ d ∈ filterMapKeys, ∀ t ∈ vocabOf d,
    validate_filter_value d t = (true, none) := by decide

/-- The sanitizer fixes every string it produces. -/
theorem sanitize_idem (s : String) : sanitize (sanitize s) = sanitize s := by
  rcases sanitize_cases s with h | ⟨hne, hdne, hall⟩
  · rw [h]
    rfl
  · conv_lhs => rw [sanitize_def (sanitize s), if_neg hne]
    conv_rhs => rw [show sanitize s = String.mk (sanitize s).data from rfl]
    rw [sanitizeCore_fixed hdne hall]

/-! ## Claim theorems: sanitizer -/

/-- C6: the sanitizer is idempotent: for every input `x`,
`sanitize (sanitize x) = sanitize x`. -/
theorem sanitize_idempotent : ∀ x : String, sanitize (sanitize x) = sanitize x :=
  fun x => sanitize_idem x

/-- C7: the sanitizer is total and fails open: a non-string (`none`) or
empty input yields the empty string, every result is either empty or a
full match of `^[a-z0-9\-_]+$`, and the injection example
example (quote, semicolon, spaces) sanitizes to the empty string. -/
theorem sanitize_safe :
    sanitizeInput none = "" ∧
    sanitize "" = "" ∧
    (∀ s : String, sanitize s = "" ∨ fullmatchAllowed (sanitize s) = true) ∧
    sanitize "aire\x27; DROP TABLE--" = "" := by
  refine ⟨rfl, rfl, ?_, by decide⟩
  intro s
  rcases sanitize_cases s with h | ⟨_, hne, hall⟩
  · exact Or.inl h
  · right
    unfold fullmatchAllowed
    rw [hall]
    simp [List.isEmpty_iff, hne]

/-! ## Claim theorems: recommendations -/

/-- C8: `get_recommended_filters "camion"` yields exactly oils
`mineral, semi-sintetico` and fuels `diesel, gas`, a filter list
containing `hidraulico`, and an unknown vehicle type yields the empty
mapping rather than an error. -/
theorem recommended_camion_and_unknown :
    rget (get_recommended_filters "camion") "tipo_aceite" =
      some ["mineral", "semi-sintetico"] ∧
    rget (get_recommended_filters "camion") "tipo_combustible" =
      some ["diesel", "gas"] ∧
    "hidraulico" ∈ (rget (get_recommended_filters "camion") "tipo_filtro").getD [] ∧
    get_recommended_filters "not_a_type" = [] := by decide

/-- C9: `maquinaria` and `agricola` are vocabulary members that pass
value validation, yet `get_recommended_filters` returns the empty
mapping for them, exactly as for unknown types: the recommendation
table only covers `auto`, `moto`, `camion`, `bus`. -/
theorem recommendation_table_only_four :
    "maquinaria" ∈ tipoVehiculoValues ∧ "agricola" ∈ tipoVehiculoValues ∧
    validate_filter_value "tipo_vehiculo" "maquinaria" = (true, none) ∧
    validate_filter_value "tipo_vehiculo" "agricola" = (true, none) ∧
    get_recommended_filters "maquinaria" = [] ∧
    get_recommended_filters "agricola" = [] ∧
    recommendationsTable.map Prod.fst = ["auto", "moto", "camion", "bus"] := by decide

/-! ## Claim theorems: per-value validator -/

/-- C2: every token of every recognized dimension validates, and any
value sanitizing to a non-empty string outside the dimension vocabulary
is rejected with the not-in-vocabulary message. -/
theorem vocabulary_membership_validates :
    (∀ d ∈ filterMapKeys, ∀ t ∈ vocabOf d,
      validate_filter_value d t = (true, none)) ∧
    (∀ d ∈ filterMapKeys, ∀ v : String, sanitize v ≠ "" →
      sanitize v ∉ vocabOf d →
      validate_filter_value d v =
        (false, some (valueNotInVocabularyMsg d (sanitize v)))) := by
  refine ⟨vfv_token, ?_⟩
  intro d hd v hv hnv
  obtain ⟨hfix, hne⟩ := keys_fixed d hd
  rw [vfv_eq, hfix]
  rw [if_neg (by simp [hne, hv]), if_neg (by simp [hd]), if_pos hnv]

/-- Witness for C2 at dimension `tipo_vehiculo` with token `auto` and
non-token `tractor`. -/
theorem vocabulary_membership_validates_witness :
    validate_filter_value "tipo_vehiculo" "auto" = (true, none) ∧
    validate_filter_value "tipo_vehiculo" "tractor" =
      (false, some (valueNotInVocabularyMsg "tipo_vehiculo" "tractor")) := by
  constructor
  · exact vocabulary_membership_validates.1 "tipo_vehiculo" (by decide) "auto" (by decide)
  · have h := vocabulary_membership_validates.2 "tipo_vehiculo" (by decide) "tractor"
      (by decide) (by decide)
    rw [show sanitize "tractor" = "tractor" from by decide] at h
    exact h

/-- C5: the value validator is total with typed results: empty sanitized
input takes precedence and yields the empty-input message, then the
unknown-dimension message, then the not-in-vocabulary message, and
otherwise success. -/
theorem value_validator_typed_precedence : ∀ ft v : String,
    ((sanitize ft = "" ∨ sanitize v = "") →
      validate_filter_value ft v = (false, some emptyInputMsg)) ∧
    (sanitize ft ≠ "" → sanitize v ≠ "" → sanitize ft ∉ filterMapKeys →
      validate_filter_value ft v =
        (false, some (unknownDimensionMsg (sanitize ft)))) ∧
    (sanitize ft ≠ "" → sanitize v ≠ "" → sanitize ft ∈ filterMapKeys →
      sanitize v ∉ vocabOf (sanitize ft) →
      validate_filter_value ft v =
        (false, some (valueNotInVocabularyMsg (sanitize ft) (sanitize v)))) ∧
    (sanitize ft ≠ "" → sanitize v ≠ "" → sanitize ft ∈ filterMapKeys →
      sanitize v ∈ vocabOf (sanitize ft) →
      validate_filter_value ft v = (true, none)) := by
  intro ft v
  refine ⟨?_, ?_, ?_, ?_⟩
  · intro h
    rw [vfv_eq, if_pos h]
  · intro h1 h2 h3
    rw [vfv_eq, if_neg (by simp [h1, h2]), if_pos h3]
  · intro h1 h2 h3 h4
    rw [vfv_eq, if_neg (by simp [h1, h2]), if_neg (by simp [h3]), if_pos h4]
  · intro h1 h2 h3 h4
    rw [vfv_eq, if_neg (by simp [h1, h2]), if_neg (by simp [h3]),
      if_neg (by simp [h4])]

/-- Witness for C5: one concrete input per typed outcome. -/
theorem value_validator_typed_precedence_witness :
    validate_filter_value "" "auto" = (false, some emptyInputMsg) ∧
    validate_filter_value "color" "rojo" =
      (false, some (unknownDimensionMsg "color")) ∧
    validate_filter_value "tipo_vehiculo" "tractor" =
      (false, some (valueNotInVocabularyMsg "tipo_vehiculo" "tractor")) ∧
    validate_filter_value "tipo_vehiculo" "auto" = (true, none) := by
  refine ⟨(value_validator_typed_precedence "" "auto").1 (by decide), ?_, ?_, ?_⟩
  · have h := (value_validator_typed_precedence "color" "rojo").2.1
      (by decide) (by decide) (by decide)
    rw [show sanitize "color" = "color" from by decide] at h
    exact h
  · have h := (value_validator_typed_precedence "tipo_vehiculo" "tractor").2.2.1
      (by decide) (by decide) (by decide) (by decide)
    rw [show sanitize "tipo_vehiculo" = "tipo_vehiculo" from by decide,
      show sanitize "tractor" = "tractor" from by decide] at h
    exact h
  · exact (value_validator_typed_precedence "tipo_vehiculo" "auto").2.2.2
      (by decide) (by decide) (by decide) (by decide)

/-! ## Helper lemmas: the combination loop -/

theorem vfc_eq_loop (l : List (String × String)) :
    validate_filter_combo l = comboLoop l [] := by
  cases l with
  | nil => decide
  | cons hd tl =>
    unfold validate_filter_combo
    rw [if_neg (by simp)]

theorem comboLoop_cons (k v : String) (rest : List (String × String)) (acc : Dict) :
    comboLoop ((k, v) :: rest) acc =
      (if sanitize k = "" ∨ sanitize v = "" then comboLoop rest acc
       else
         match validate_filter_value (sanitize k) (sanitize v) with
         | (true, _) => comboLoop rest (dset acc (sanitize k) (sanitize v))
         | (false, some m) => (false, some (invalidFilterMsg m), none)
         | (false, none) => (false, some (invalidFilterMsg "None"), none)) := rfl

theorem comboLoop_drop (k v : String) (h : sanitize k = "" ∨ sanitize v = "") :
    ∀ (pre post : List (String × String)) (acc : Dict),
      comboLoop (pre ++ (k, v) :: post) acc = comboLoop (pre ++ post) acc := by
  intro pre
  induction pre with
  | nil =>
    intro post acc
    simp only [List.nil_append]
    rw [comboLoop_cons, if_pos h]
  | cons hd tl ih =>
    intro post acc
    obtain ⟨a, b⟩ := hd
    simp only [List.cons_append]
    rw [comboLoop_cons, comboLoop_cons]
    by_cases hab : sanitize a = "" ∨ sanitize b = ""
    · rw [if_pos hab, if_pos hab, ih]
    · rw [if_neg hab, if_neg hab]
      cases hvv : validate_filter_value (sanitize a) (sanitize b) with
      | mk ok m =>
        cases ok
        · cases m <;> rfl
        · exact ih post (dset acc (sanitize a) (sanitize b))

/-! ## Claim theorems: combination validator, empty and dropped pairs -/

/-- C3: the empty map validates to the empty sanitized selection, and a
pair whose key or value sanitizes to the empty string is silently
dropped: validation of any map containing it equals validation of the
map without it. -/
theorem combo_empty_and_blank_pairs_dropped :
    validate_filter_combo [] = (true, none, some []) ∧
    ∀ (pre : List (String × String)) (k v : String)
      (post : List (String × String)),
      (sanitize k = "" ∨ sanitize v = "") →
      validate_filter_combo (pre ++ (k, v) :: post) =
        validate_filter_combo (pre ++ post) := by
  refine ⟨by decide, ?_⟩
  intro pre k v post h
  rw [vfc_eq_loop, vfc_eq_loop, comboLoop_drop k v h]

/-- Witness for C3: a pair with a blank-sanitizing key is dropped from a
concrete map. -/
theorem combo_blank_pairs_dropped_witness :
    validate_filter_combo [("a b", "x"), ("tipo_vehiculo", "auto")] =
      validate_filter_combo [("tipo_vehiculo", "auto")] :=
  combo_empty_and_blank_pairs_dropped.2 [] "a b" "x" [("tipo_vehiculo", "auto")]
    (Or.inl (by decide))

/-! ## Claim theorems: unknown dimension keys in a combination -/

theorem comboLoop_unknown_key_rejects (k v : String)
    (hk : sanitize k ≠ "") (hv : sanitize v ≠ "")
    (hnk : sanitize k ∉ filterMapKeys) :
    ∀ (pairs : List (String × String)) (acc : Dict), (k, v) ∈ pairs →
      (comboLoop pairs acc).1 = false := by
  intro pairs
  induction pairs with
  | nil =>
    intro acc hmem
    simp at hmem
  | cons hd tl ih =>
    intro acc hmem
    obtain ⟨a, b⟩ := hd
    rw [comboLoop_cons]
    rcases List.mem_cons.mp hmem with heq | htl
    · obtain ⟨rfl, rfl⟩ := Prod.mk.injEq .. ▸ And.intro (congrArg Prod.fst heq)
        (congrArg Prod.snd heq)
      rw [if_neg (by simp [hk, hv])]
      have hval : validate_filter_value (sanitize k) (sanitize v) =
          (false, some (unknownDimensionMsg (sanitize k))) := by
        rw [vfv_eq, sanitize_idem, sanitize_idem, if_neg (by simp [hk, hv]),
          if_pos hnk]
      rw [hval]
    · by_cases hab : sanitize a = "" ∨ sanitize b = ""
      · rw [if_pos hab]
        exact ih acc htl
      · rw [if_neg hab]
        cases hvv : validate_filter_value (sanitize a) (sanitize b) with
        | mk ok m =>
          cases ok
          · cases m <;> rfl
          · exact ih (dset acc (sanitize a) (sanitize b)) htl

/-- C10: a pair whose key sanitizes to a non-empty string outside the
four recognized dimensions is not dropped: any combination containing
it (with a non-blank value) is rejected, and on the concrete input
`color=rojo` the rejection carries the unknown-dimension reason. -/
theorem unknown_dimension_rejects_combo :
    (∀ (pairs : List (String × String)) (k v : String), (k, v) ∈ pairs →
      sanitize k ≠ "" → sanitize v ≠ "" → sanitize k ∉ filterMapKeys →
      (validate_filter_combo pairs).1 = false) ∧
    validate_filter_combo [("color", "rojo")] =
      (false, some (invalidFilterMsg (unknownDimensionMsg "color")), none) := by
  constructor
  · intro pairs k v hmem hk hv hnk
    rw [vfc_eq_loop]
    exact comboLoop_unknown_key_rejects k v hk hv hnk pairs [] hmem
  · decide

/-- Witness for C10: a combination holding the unrecognized key `color`
next to a valid pair is rejected. -/
theorem unknown_dimension_rejects_combo_witness :
    (validate_filter_combo [("tipo_vehiculo", "auto"), ("color", "rojo")]).1 = false :=
  unknown_dimension_rejects_combo.1 [("tipo_vehiculo", "auto"), ("color", "rojo")]
    "color" "rojo" (by decide) (by decide) (by decide) (by decide)

/-! ## Helper lemmas: invariants of the sanitized dict -/

theorem vfv_true_mem {a b : String} {x : Option String}
    (h : validate_filter_value a b = (true, x)) :
    sanitize a ∈ filterMapKeys ∧ sanitize b ∈ vocabOf (sanitize a) := by
  rw [vfv_eq] at h
  by_cases h1 : sanitize a = "" ∨ sanitize b = ""
  · rw [if_pos h1] at h
    simp at h
  · rw [if_neg h1] at h
    by_cases h2 : sanitize a ∉ filterMapKeys
    · rw [if_pos h2] at h
      simp at h
    · rw [if_neg h2] at h
      by_cases h3 : sanitize b ∉ vocabOf (sanitize a)
      · rw [if_pos h3] at h
        simp at h
      · exact ⟨not_not.mp h2, not_not.mp h3⟩

theorem dset_keys_of_present {d : Dict} {k : String}
    (h : d.any (fun p => p.1 == k) = true) (v : String) :
    (dset d k v).map Prod.fst = d.map Prod.fst := by
  unfold dset
  rw [if_pos h, List.map_map]
  apply List.map_congr_left
  intro p _
  by_cases hp : p.1 = k
  · simp [Function.comp, hp]
  · simp [Function.comp, hp]

theorem dset_eq_append {d : Dict} {k : String}
    (h : d.any (fun p => p.1 == k) = false) (v : String) :
    dset d k v = d ++ [(k, v)] := by
  unfold dset
  rw [if_neg (by simp [h])]

theorem dset_good {d : Dict} (hd : GoodDict d) {k v : String}
    (hk : k ∈ filterMapKeys) (hv : v ∈ vocabOf k) : GoodDict (dset d k v) := by
  by_cases hmem : d.any (fun p => p.1 == k) = true
  · constructor
    · rw [dset_keys_of_present hmem v]
      exact hd.1
    · intro p hp
      unfold dset at hp
      rw [if_pos hmem] at hp
      rcases List.mem_map.mp hp with ⟨q, hq, rfl⟩
      by_cases hqk : q.1 = k
      · simp only [hqk, beq_self_eq_true, if_pos]
        exact ⟨hk, hv⟩
      · rw [if_neg (by simp [hqk])]
        exact hd.2 q hq
  · have hmem' : d.any (fun p => p.1 == k) = false := by
      cases hany : d.any (fun p => p.1 == k) with
      | false => rfl
      | true => exact absurd hany hmem
    rw [dset_eq_append hmem' v]
    have hknot : k ∉ d.map Prod.fst := by
      intro hcon
      rcases List.mem_map.mp hcon with ⟨q, hq, hqk⟩
      have : d.any (fun p => p.1 == k) = true := by
        simp only [List.any_eq_true]
        exact ⟨q, hq, by simp [hqk]⟩
      rw [this] at hmem'
      cases hmem'
    constructor
    · rw [List.map_append]
      rw [List.nodup_append]
      refine ⟨hd.1, by simp, ?_⟩
      intro x hx
      simp only [List.map_cons, List.map_nil, List.mem_singleton]
      intro hxk
      exact hknot (hxk ▸ hx)
    · intro p hp
      rcases List.mem_append.mp hp with hp | hp
      · exact hd.2 p hp
      · rw [List.mem_singleton.mp hp]
        exact ⟨hk, hv⟩

theorem good_length_le_four {d : Dict} (h : GoodDict d) : d.length ≤ 4 := by
  have hsub : (d.map Prod.fst) ⊆ filterMapKeys := by
    intro x hx
    rcases List.mem_map.mp hx with ⟨p, hp, rfl⟩
    exact (h.2 p hp).1
  have := (List.subperm_of_subset h.1 hsub).length_le
  simpa [filterMapKeys] using this

theorem runRules_msg {rs : List (Dict → Bool)} {f : Dict} {m : String}
    (h : runRules rs f = some m) : m = incompatibleComboMsg := by
  induction rs with
  | nil => simp [runRules] at h
  | cons r rest ih =>
    unfold runRules at h
    by_cases hr : r f
    · rw [if_pos hr] at h
      exact (Option.some.injEq .. ▸ h).symm
    · rw [if_neg hr] at h
      exact ih h

theorem finishCombo_spec (acc : Dict) :
    finishCombo acc = (true, none, some acc) ∨
      finishCombo acc = (false, some incompatibleComboMsg, none) := by
  unfold finishCombo
  by_cases hlen : acc.length > 1
  · rw [if_pos hlen]
    cases hc : check_compatibility acc with
    | none => exact Or.inl rfl
    | some m =>
      right
      rw [runRules_msg hc]
  · rw [if_neg hlen]
    exact Or.inl rfl

theorem comboLoop_shape (pairs : List (String × String)) :
    ∀ acc : Dict, GoodDict acc →
      (∃ s, comboLoop pairs acc = (true, none, some s) ∧ GoodDict s) ∨
      (∃ m, comboLoop pairs acc = (false, some m, none)) := by
  induction pairs with
  | nil =>
    intro acc hacc
    rcases finishCombo_spec acc with h | h
    · exact Or.inl ⟨acc, h, hacc⟩
    · exact Or.inr ⟨incompatibleComboMsg, h⟩
  | cons hd tl ih =>
    intro acc hacc
    obtain ⟨k, v⟩ := hd
    rw [comboLoop_cons]
    by_cases h : sanitize k = "" ∨ sanitize v = ""
    · rw [if_pos h]
      exact ih acc hacc
    · rw [if_neg h]
      cases hvv : validate_filter_value (sanitize k) (sanitize v) with
      | mk ok m =>
        cases ok
        · cases m with
          | none => exact Or.inr ⟨_, rfl⟩
          | some m' => exact Or.inr ⟨_, rfl⟩
        · have hmem := vfv_true_mem hvv
          rw [sanitize_idem, sanitize_idem] at hmem
          exact ih (dset acc (sanitize k) (sanitize v))
            (dset_good hacc hmem.1 hmem.2)

/-- C4: whenever the combination validator succeeds the returned
selection has at most four entries, every key a recognized dimension and
every value in the vocabulary of its dimension; whenever it rejects, no
partial selection is returned. -/
theorem combo_all_or_nothing (filters : List (String × String)) :
    ((validate_filter_combo filters).1 = false →
      (validate_filter_combo filters).2.2 = none) ∧
    (∀ s, (validate_filter_combo filters).2.2 = some s →
      s.length ≤ 4 ∧ ∀ p ∈ s, p.1 ∈ filterMapKeys ∧ p.2 ∈ vocabOf p.1) := by
  rw [vfc_eq_loop]
  rcases comboLoop_shape filters [] ⟨List.nodup_nil, by simp⟩ with
    ⟨s, hs, hgood⟩ | ⟨m, hm⟩
  · rw [hs]
    constructor
    · intro h
      cases h
    · intro s' hs'
      obtain rfl : s = s' := Option.some.injEq .. ▸ hs'
      exact ⟨good_length_le_four hgood, hgood.2⟩
  · rw [hm]
    constructor
    · intro _
      rfl
    · intro s' hs'
      cases hs'

/-- Witness for C4: a successful concrete combination satisfies the
bound and memberships, and a rejected one returns no selection. -/
theorem combo_all_or_nothing_witness :
    ([("tipo_vehiculo", "auto"), ("tipo_filtro", "habitaculo")].length ≤ 4 ∧
      ∀ p ∈ ([("tipo_vehiculo", "auto"), ("tipo_filtro", "habitaculo")] : Dict),
        p.1 ∈ filterMapKeys ∧ p.2 ∈ vocabOf p.1) ∧
    (validate_filter_combo
      [("tipo_vehiculo", "moto"), ("tipo_filtro", "polen")]).2.2 = none := by
  constructor
  · exact (combo_all_or_nothing
      [("tipo_vehiculo", "auto"), ("tipo_filtro", "habitaculo")]).2
      [("tipo_vehiculo", "auto"), ("tipo_filtro", "habitaculo")] (by decide)
  · exact (combo_all_or_nothing
      [("tipo_vehiculo", "moto"), ("tipo_filtro", "polen")]).1 (by decide)

/-! ## Claim theorems: compatibility rules -/

theorem check_compat_iff (f : Dict) :
    check_compatibility f =
      if (rule1 f || rule2 f || rule3 f || rule4 f) = true
      then some incompatibleComboMsg else none := by
  unfold check_compatibility compatibilityRules
  simp only [runRules]
  by_cases h1 : rule1 f <;> by_cases h2 : rule2 f <;> by_cases h3 : rule3 f <;>
    by_cases h4 : rule4 f <;> simp [h1, h2, h3, h4]

theorem comboLoop_rebuilds (s : List (String × String)) :
    ∀ acc : Dict, GoodDict (acc ++ s) → comboLoop s acc = finishCombo (acc ++ s) := by
  induction s with
  | nil =>
    intro acc _
    rw [List.append_nil]
    rfl
  | cons hd tl ih =>
    intro acc hg
    obtain ⟨k, v⟩ := hd
    have hmem : (k, v) ∈ acc ++ (k, v) :: tl := by simp
    have hk : k ∈ filterMapKeys := (hg.2 _ hmem).1
    have hv : v ∈ vocabOf k := (hg.2 _ hmem).2
    have hkfix := keys_fixed k hk
    have hvfix := tokens_fixed k hk v hv
    rw [comboLoop_cons, hkfix.1, hvfix.1]
    rw [if_neg (by simp [hkfix.2, hvfix.2])]
    rw [vfv_token k hk v hv]
    show comboLoop tl (dset acc k v) = finishCombo (acc ++ (k, v) :: tl)
    have hnodup := hg.1
    rw [List.map_append] at hnodup
    have hknot : k ∉ acc.map Prod.fst := by
      intro hcon
      rcases List.nodup_append.mp hnodup with ⟨_, _, hdisj⟩
      exact hdisj hcon (by simp)
    have hany : acc.any (fun p => p.1 == k) = false := by
      cases hany : acc.any (fun p => p.1 == k) with
      | false => rfl
      | true =>
        rcases List.any_eq_true.mp hany with ⟨q, hq, hqk⟩
        exact absurd (List.mem_map.mpr ⟨q, hq, by simpa using hqk⟩) hknot
    rw [dset_eq_append hany v]
    rw [ih (acc ++ [(k, v)]) (by simpa [List.append_assoc] using hg)]
    rw [List.append_assoc]
    rfl

/-- C1: for every sanitized selection (distinct recognized keys with
vocabulary values), the combination validator rejects — always with the
one generic incompatibility message — exactly when the selection has at
least two populated dimensions and one of the four fixed rules holds of
it; with fewer than two dimensions it always succeeds. -/
theorem compatibility_iff_rules (s : List (String × String)) (h : GoodDict s) :
    validate_filter_combo s =
      if 2 ≤ s.length ∧ (rule1 s || rule2 s || rule3 s || rule4 s) = true
      then (false, some incompatibleComboMsg, none)
      else (true, none, some s) := by
  have hvc : validate_filter_combo s = finishCombo s := by
    cases s with
    | nil => decide
    | cons hd tl =>
      rw [vfc_eq_loop]
      have hre := comboLoop_rebuilds (hd :: tl) [] (by simpa using h)
      simpa using hre
  rw [hvc]
  unfold finishCombo
  by_cases hlen : s.length > 1
  · rw [if_pos hlen, check_compat_iff]
    by_cases hr : (rule1 s || rule2 s || rule3 s || rule4 s) = true
    · rw [if_pos hr]
      show (false, some incompatibleComboMsg, none) = _
      rw [if_pos ⟨by omega, hr⟩]
    · rw [if_neg hr]
      show (true, none, some s) = _
      rw [if_neg (fun hc => hr hc.2)]
  · rw [if_neg hlen]
    rw [if_neg (fun hc => absurd hc.1 (by omega))]

/-- Witness for C1: rule 3 fires on a concrete two-dimension selection
and a compatible two-dimension selection passes. -/
theorem compatibility_iff_rules_witness :
    validate_filter_combo
      [("tipo_combustible", "electrico"), ("tipo_filtro", "combustible")] =
      (false, some incompatibleComboMsg, none) ∧
    validate_filter_combo [("tipo_vehiculo", "auto"), ("tipo_filtro", "habitaculo")] =
      (true, none, some [("tipo_vehiculo", "auto"), ("tipo_filtro", "habitaculo")]) := by
  constructor
  · exact (compatibility_iff_rules
      [("tipo_combustible", "electrico"), ("tipo_filtro", "combustible")]
      (by decide)).trans (by decide)
  · exact (compatibility_iff_rules
      [("tipo_vehiculo", "auto"), ("tipo_filtro", "habitaculo")]
      (by decide)).trans (by decide)
